import Mathlib

/-!
Verification of the Gesture-canvas drawing application.

The definitions below are a shallow embedding of the JavaScript sources:
  * `src/camera-gesture.js` — gesture classifier, stability filter,
    coordinate mapping from normalized landmarks to surface pixels;
  * `src/drawing-engine.js` — double-buffered stroke rasterization engine;
  * `src/webgl-utils.js`    — fragment shaders and blend semantics;
  * `src/main.js`           — brush-size configuration and keyboard handling.

JavaScript numbers are modelled by `ℚ` (with an explicit `JSVal` wrapper for
NaN/±Infinity where the source tests for them).  GPU pixel evaluation, which
involves a Euclidean distance (a real square root), is interpreted over `ℝ`;
everything else is computable.
-/

namespace GestureCanvas

/-! ## Gesture classifier (src/camera-gesture.js, `recognizeGesture`) -/

structure Landmark where
  x : ℚ
  y : ℚ
deriving DecidableEq

/-- A MediaPipe hand: 21 indexed landmarks (0 = wrist, 4 = thumb tip,
6 = index pip, 8 = index tip, 10/12 = middle, 14/16 = ring, 18/20 = pinky). -/
def LandmarkSet := Fin 21 → Landmark

/-- `indexTip.y < indexPip.y` (camera-gesture.js line 448). -/
def indexExtended (lm : LandmarkSet) : Bool := (lm 8).y < (lm 6).y

/-- `middleTip.y < landmarks[10].y` (line 449). -/
def middleExtended (lm : LandmarkSet) : Bool := (lm 12).y < (lm 10).y

/-- `landmarks[16].y < landmarks[14].y` (line 450). -/
def ringExtended (lm : LandmarkSet) : Bool := (lm 16).y < (lm 14).y

/-- `landmarks[20].y < landmarks[18].y` (line 451). -/
def pinkyExtended (lm : LandmarkSet) : Bool := (lm 20).y < (lm 18).y

/-- Squared Euclidean distance from wrist (landmark 0) to thumb tip (landmark 4). -/
def thumbDistSqFromWrist (lm : LandmarkSet) : ℚ :=
  ((lm 4).x - (lm 0).x) ^ 2 + ((lm 4).y - (lm 0).y) ^ 2

/-- Source: `Math.sqrt(dx² + dy²) > 0.1` (line 456).  For a nonnegative
radicand `s`, `√s > 0.1 ↔ s > 0.01`, so we compare squared distances. -/
def thumbExtended (lm : LandmarkSet) : Bool := thumbDistSqFromWrist lm > 1 / 100

/-- `[indexExtended, middleExtended, ringExtended, pinkyExtended, thumbExtended].filter(Boolean).length`
(line 459). -/
def extendedCount (lm : LandmarkSet) : Nat :=
  ([indexExtended lm, middleExtended lm, ringExtended lm, pinkyExtended lm,
    thumbExtended lm].filter (fun b => b)).length

/-- Squared distance between index tip and middle tip (lines 465-468);
the source compares `Math.sqrt` of this against `0.08`, i.e. this against `0.0064`. -/
def fingerDistSq (lm : LandmarkSet) : ℚ :=
  ((lm 8).x - (lm 12).x) ^ 2 + ((lm 8).y - (lm 12).y) ^ 2

/-- The ordered decision list of camera-gesture.js lines 470-521. -/
def recognizeGesture (lm : LandmarkSet) : String :=
  if 4 ≤ extendedCount lm then "palm"
  else if extendedCount lm = 1 ∧ indexExtended lm then "point"
  else if extendedCount lm = 2 ∧ indexExtended lm ∧ middleExtended lm then
    (if fingerDistSq lm < 8 / 100 * (8 / 100) then "draw" else "peace")
  else if extendedCount lm = 3 ∧ indexExtended lm ∧ pinkyExtended lm ∧ thumbExtended lm then
    "rock"
  else if extendedCount lm = 3 ∧ indexExtended lm ∧ middleExtended lm ∧ ringExtended lm then
    "three"
  else if extendedCount lm = 1 ∧ thumbExtended lm ∧ ¬ indexExtended lm then "tap"
  else if indexExtended lm then "point"
  else "none"

/-! ## Stability filter (src/camera-gesture.js, `getStableGesture`, lines 523-534) -/

/-- `getStableGesture`: returns `'none'` when the history is shorter than the
stability window; otherwise returns the most recent entry when the last
`frames` entries all equal it (`slice(-frames).every(g => g === recent)`),
and `'none'` otherwise. -/
def getStableGesture (history : List String) (frames : Nat) : String :=
  if history.length < frames then "none"
  else
    let recent := history.getLastD "none"
    if (history.drop (history.length - frames)).all (fun g => g == recent) then recent
    else "none"

/-- The most recent raw label of a gesture history (spec vocabulary). -/
def lastLabel (h : List String) : String := h.getLastD "none"

/-- The window of the last `n` entries of a history (spec vocabulary). -/
def lastWindow (h : List String) (n : Nat) : List String := h.drop (h.length - n)

lemma lastWindow_three (h : List String) (a b c : String) :
    lastWindow (h ++ [a, b, c]) 3 = [a, b, c] := by
  simp only [lastWindow, List.length_append, List.length_cons, List.length_nil]
  rw [show h.length + (0 + 1 + 1 + 1) - 3 = h.length by omega, List.drop_left]

lemma lastWindow_one (l : List String) (x : String) : lastWindow (l ++ [x]) 1 = [x] := by
  simp only [lastWindow, List.length_append, List.length_cons, List.length_nil]
  rw [show l.length + (0 + 1) - 1 = l.length by omega, List.drop_left]

lemma lastLabel_append (h l : List String) (hl : l ≠ []) :
    lastLabel (h ++ l) = lastLabel l := by
  simp [lastLabel, List.getLastD_eq_getLast?, List.getLast?_append_of_ne_nil _ hl]

/-- C1: for every history and window `n ≥ 1`, the stable output is the most
recent raw label exactly when the history holds at least `n` entries and the
last `n` of them are identical, and `'none'` otherwise; with window 1 the
filter passes the latest label through; with window 3, any history ending
`[A, A, B]` (`A ≠ B`) yields `'none'` and any history ending `[B, B, B]`
yields `B`. -/
theorem stableGesture_characterization :
    (∀ (h : List String) (n : Nat), 1 ≤ n →
      getStableGesture h n =
        if n ≤ h.length ∧ ∀ g ∈ lastWindow h n, g = lastLabel h then lastLabel h
        else "none")
    ∧ (∀ h : List String, h ≠ [] → getStableGesture h 1 = lastLabel h)
    ∧ (∀ (h : List String) (a b : String), a ≠ b →
        getStableGesture (h ++ [a, a, b]) 3 = "none")
    ∧ (∀ (h : List String) (b : String), getStableGesture (h ++ [b, b, b]) 3 = b) := by
  have hchar : ∀ (h : List String) (n : Nat), 1 ≤ n →
      getStableGesture h n =
        if n ≤ h.length ∧ ∀ g ∈ lastWindow h n, g = lastLabel h then lastLabel h
        else "none" := by
    intro h n _
    unfold getStableGesture lastWindow lastLabel
    by_cases hlen : h.length < n
    · rw [if_pos hlen, if_neg]
      intro hcon
      exact absurd hcon.1 (by omega)
    · rw [if_neg hlen]
      by_cases hall : ∀ g ∈ h.drop (h.length - n), g = h.getLastD "none"
      · rw [if_pos, if_pos ⟨by omega, hall⟩]
        simp only [List.all_eq_true, beq_iff_eq]
        exact hall
      · rw [if_neg, if_neg]
        · intro hcon; exact hall hcon.2
        · simp only [List.all_eq_true, beq_iff_eq]
          exact hall
  refine ⟨hchar, ?_, ?_, ?_⟩
  · intro h hne
    obtain ⟨l, x, rfl⟩ := (List.eq_nil_or_concat h).resolve_left hne
    simp only [List.concat_eq_append]
    rw [hchar _ 1 le_rfl, if_pos]
    refine ⟨by simp, ?_⟩
    intro g hg
    rw [lastWindow_one] at hg
    rw [lastLabel_append _ _ (by simp), show lastLabel [x] = x from rfl]
    simpa using hg
  · intro h a b hab
    rw [hchar _ 3 (by omega), if_neg]
    rintro ⟨-, hall⟩
    have hmem : a ∈ lastWindow (h ++ [a, a, b]) 3 := by
      rw [lastWindow_three]; simp
    have hlast : lastLabel (h ++ [a, a, b]) = b := by
      rw [lastLabel_append _ _ (by simp)]; rfl
    exact hab ((hall a hmem).trans hlast)
  · intro h b
    have hlast : lastLabel (h ++ [b, b, b]) = b := by
      rw [lastLabel_append _ _ (by simp)]; rfl
    rw [hchar _ 3 (by omega), if_pos, hlast]
    refine ⟨by simp only [List.length_append, List.length_cons, List.length_nil]; omega, ?_⟩
    intro g hg
    rw [lastWindow_three] at hg
    rw [hlast]
    simpa using hg
theorem stableGesture_characterization_witness :
    getStableGesture ["draw", "draw"] 2 =
      if 2 ≤ (["draw", "draw"] : List String).length ∧
          ∀ g ∈ lastWindow ["draw", "draw"] 2, g = lastLabel ["draw", "draw"] then
        lastLabel ["draw", "draw"]
      else "none" :=
  stableGesture_characterization.1 ["draw", "draw"] 2 (by decide)

/-- C2: whenever at least four of the five per-finger extension booleans hold,
the classifier returns `palm`, no matter which fingers are extended. -/
theorem recognizeGesture_palm (lm : LandmarkSet) (h : 4 ≤ extendedCount lm) :
    recognizeGesture lm = "palm" := by
  unfold recognizeGesture
  rw [if_pos h]

/-- A concrete open hand: the four finger tips (8, 12, 16, 20) sit above their
mid joints (6, 10, 14, 18) and the thumb tip is far from the wrist. -/
def palmExample : LandmarkSet := fun i =>
  if i.val = 6 ∨ i.val = 10 ∨ i.val = 14 ∨ i.val = 18 then ⟨0, 1/2⟩
  else if i.val = 4 then ⟨1/2, 1/2⟩
  else ⟨0, 0⟩
theorem recognizeGesture_palm_witness :
    4 ≤ extendedCount palmExample ∧ recognizeGesture palmExample = "palm" := by
  have e0 : palmExample 0 = ⟨0, 0⟩ := rfl
  have e4 : palmExample 4 = ⟨1/2, 1/2⟩ := rfl
  have e6 : palmExample 6 = ⟨0, 1/2⟩ := rfl
  have e8 : palmExample 8 = ⟨0, 0⟩ := rfl
  have e10 : palmExample 10 = ⟨0, 1/2⟩ := rfl
  have e12 : palmExample 12 = ⟨0, 0⟩ := rfl
  have e14 : palmExample 14 = ⟨0, 1/2⟩ := rfl
  have e16 : palmExample 16 = ⟨0, 0⟩ := rfl
  have e18 : palmExample 18 = ⟨0, 1/2⟩ := rfl
  have e20 : palmExample 20 = ⟨0, 0⟩ := rfl
  have b1 : indexExtended palmExample = true := by
    simp only [indexExtended, e8, e6, decide_eq_true_eq]; norm_num
  have b2 : middleExtended palmExample = true := by
    simp only [middleExtended, e12, e10, decide_eq_true_eq]; norm_num
  have b3 : ringExtended palmExample = true := by
    simp only [ringExtended, e16, e14, decide_eq_true_eq]; norm_num
  have b4 : pinkyExtended palmExample = true := by
    simp only [pinkyExtended, e20, e18, decide_eq_true_eq]; norm_num
  have b5 : thumbExtended palmExample = true := by
    simp only [thumbExtended, thumbDistSqFromWrist, e4, e0, decide_eq_true_eq]; norm_num
  have h : 4 ≤ extendedCount palmExample := by
    rw [extendedCount, b1, b2, b3, b4, b5]; decide
  exact ⟨h, recognizeGesture_palm palmExample h⟩

/-! ## Coordinate mapper (src/camera-gesture.js, `handleDrawingMovement`, lines 611-624) -/

/-- The screen and canvas coordinates computed by `handleDrawingMovement`:
`screenX = (1 - indexTip.x) * containerRect.width`, `screenY = indexTip.y *
containerRect.height`, and identically for the canvas rectangle. -/
def handleDrawingMovementCoords (tipX tipY rectW rectH canvasW canvasH : ℚ) :
    (ℚ × ℚ) × (ℚ × ℚ) :=
  (((1 - tipX) * rectW, tipY * rectH), ((1 - tipX) * canvasW, tipY * canvasH))

/-- Modelled from the spec: the coordinate mapper produces
`((1 - x) * width, y * height)`.  Stated separately so the implementation can
be compared against it. -/
def mapNormalizedSpec (x y w h : ℚ) : ℚ × ℚ := ((1 - x) * w, y * h)

/-- C7: both the screen-space and the canvas-space coordinates equal the spec
formula `((1 - x) * w, y * h)`, and feeding the mirrored input `x' = 1 - x`
back through the mapper reproduces the unmirrored horizontal pixel
coordinate `x * w`. -/
theorem coordinateMapper_spec (tipX tipY rectW rectH canvasW canvasH : ℚ) :
    (handleDrawingMovementCoords tipX tipY rectW rectH canvasW canvasH).1 =
      mapNormalizedSpec tipX tipY rectW rectH
    ∧ (handleDrawingMovementCoords tipX tipY rectW rectH canvasW canvasH).2 =
      mapNormalizedSpec tipX tipY canvasW canvasH
    ∧ ((handleDrawingMovementCoords (1 - tipX) tipY rectW rectH canvasW canvasH).1).1 =
      tipX * rectW := by
  refine ⟨rfl, rfl, ?_⟩
  show (1 - (1 - tipX)) * rectW = tipX * rectW
  ring

/-! ## Shader and blend semantics (src/webgl-utils.js) -/

/-- An RGBA color with components drawn from a linear ordered field (`ℚ` for
the engine bookkeeping, `ℝ` for pixel interpretation). -/
structure RGBA (α : Type) where
  r : α
  g : α
  b : α
  a : α
deriving DecidableEq

variable {α : Type} [LinearOrderedField α]

/-- GLSL `clamp(x, 0.0, 1.0)` as used inside `smoothstep`. -/
def clampUnit (x : α) : α := max 0 (min 1 x)

/-- GLSL `smoothstep(e0, e1, x)`:
`t = clamp((x - e0) / (e1 - e0), 0, 1); t * t * (3 - 2 * t)`. -/
def smoothstep (e0 e1 x : α) : α :=
  let t := clampUnit ((x - e0) / (e1 - e0))
  t * t * (3 - 2 * t)

/-- BRUSH_FRAGMENT_SHADER (webgl-utils.js lines 124-144): fragment alpha is
`(1 - smoothstep(radius - 1, radius + 1, dist)) * u_color.a`. -/
def brushFragAlpha (radius colorA dist : α) : α :=
  (1 - smoothstep (radius - 1) (radius + 1) dist) * colorA

/-- ERASER_FRAGMENT_SHADER (webgl-utils.js lines 146-162): fragment alpha is
`smoothstep(radius - 1, radius + 1, dist)`; the fragment color is
`vec4(1, 1, 1, alpha)`. -/
def eraserFragAlpha (radius dist : α) : α :=
  smoothstep (radius - 1) (radius + 1) dist

/-- `gl.blendFunc(gl.SRC_ALPHA, gl.ONE_MINUS_SRC_ALPHA)` (pen / copy path):
`out = src.a * src + (1 - src.a) * dst` componentwise. -/
def blendSourceOver (src dst : RGBA α) : RGBA α :=
  ⟨src.a * src.r + (1 - src.a) * dst.r,
   src.a * src.g + (1 - src.a) * dst.g,
   src.a * src.b + (1 - src.a) * dst.b,
   src.a * src.a + (1 - src.a) * dst.a⟩

/-- `gl.blendFunc(gl.ZERO, gl.ONE_MINUS_SRC_ALPHA)` (eraser path,
drawing-engine.js line 250): `out = (1 - src.a) * dst` componentwise. -/
def blendZeroOneMinusSrcAlpha (src dst : RGBA α) : RGBA α :=
  ⟨(1 - src.a) * dst.r, (1 - src.a) * dst.g, (1 - src.a) * dst.b, (1 - src.a) * dst.a⟩

/-- GLSL `mix(x, y, t) = x * (1 - t) + y * t`, componentwise on vec4
(FRAGMENT_SHADER_SOURCE line 120). -/
def mix4 (x y : RGBA α) (t : α) : RGBA α :=
  ⟨x.r * (1 - t) + y.r * t, x.g * (1 - t) + y.g * t,
   x.b * (1 - t) + y.b * t, x.a * (1 - t) + y.a * t⟩

/-- The background installed by `clear()` / `setupRenderTargets`:
`gl.clearColor(1.0, 1.0, 1.0, 1.0)`. -/
def whiteQ : RGBA ℚ := ⟨1, 1, 1, 1⟩

/-! ## Double-buffered rasterization engine (src/drawing-engine.js)

Buffers are kept symbolically as the exact sequence of GL draw operations the
engine performed on the texture; `renderAt` below interprets such a trace at a
pixel. -/

/-- One brush or eraser disc draw into a framebuffer, with the uniform values
the engine passes: center `(x, canvas.height - y)`, radius `brushSize *
pressure`, and for the pen the color `{...currentColor, a: pressure}`. -/
inductive StampOp where
  | pen (cx cy radius : ℚ) (color : RGBA ℚ)
  | eraser (cx cy radius : ℚ)
deriving DecidableEq

/-- A GPU texture's contents as the trace of operations that produced it:
cleared to white, the full-screen `copyTexture` quad (`blit`), or a stamp on
top of previous contents. -/
inductive Img where
  | white : Img
  | blit (src dst : Img) : Img
  | stamp (op : StampOp) (dst : Img) : Img
deriving DecidableEq

/-- Pixel interpretation of a texture trace at `(px, py)` (framebuffer
coordinates, y up, matching `gl_FragCoord`).  The `blit` case follows
`copyTexture`: the main fragment shader emits `mix(texColor, u_color,
u_alpha)` with `u_color = (1,1,1,1)` and `u_alpha = 1`, composited with the
source-over blend that is left enabled.  Stamp distances are Euclidean, hence
the real-valued interpretation. -/
noncomputable def renderAt : Img → ℚ → ℚ → RGBA ℝ
  | .white, _, _ => ⟨1, 1, 1, 1⟩
  | .blit src dst, px, py =>
      blendSourceOver (mix4 (renderAt src px py) ⟨1, 1, 1, 1⟩ 1) (renderAt dst px py)
  | .stamp (.pen cx cy radius color) dst, px, py =>
      let dist : ℝ := Real.sqrt (((px - cx) ^ 2 + (py - cy) ^ 2 : ℚ) : ℝ)
      blendSourceOver
        ⟨(color.r : ℝ), (color.g : ℝ), (color.b : ℝ),
          brushFragAlpha (radius : ℝ) (color.a : ℝ) dist⟩
        (renderAt dst px py)
  | .stamp (.eraser cx cy radius) dst, px, py =>
      let dist : ℝ := Real.sqrt (((px - cx) ^ 2 + (py - cy) ^ 2 : ℚ) : ℝ)
      blendZeroOneMinusSrcAlpha ⟨1, 1, 1, eraserFragAlpha (radius : ℝ) dist⟩
        (renderAt dst px py)

/-- A recorded stroke sample (`this.strokePoints` entries). -/
structure StrokePoint where
  x : ℚ
  y : ℚ
  pressure : ℚ
deriving DecidableEq

/-- A 2D point (`this.lastPoint`). -/
structure Pt where
  x : ℚ
  y : ℚ
deriving DecidableEq

/-- GL-level events, logged in order: `seed` is the `copyTexture(frontTexture,
backFramebuffer)` call inside `drawPoint`, `stampDraw` the disc draw,
`present` the render-to-screen blit, `swap` the buffer swap of `endStroke`,
`clearOp` the double clear. -/
inductive RenderOp where
  | seed
  | stampDraw
  | present
  | swap
  | clearOp
deriving DecidableEq

/-- The `DrawingEngine` instance state (drawing-engine.js constructor). -/
structure EngineState where
  currentTool : String
  currentColor : RGBA ℚ
  brushSize : ℚ
  isDrawing : Bool
  lastPoint : Option Pt
  pressure : ℚ
  strokePoints : List StrokePoint
  width : ℚ
  height : ℚ
  front : Img
  back : Img
  log : List RenderOp
deriving DecidableEq

/-- A JavaScript number as far as `drawPoint`'s validation goes: finite, NaN,
or an infinity. -/
inductive JSVal where
  | num (q : ℚ)
  | nan
  | posInf
  | negInf
deriving DecidableEq

/-- JavaScript `<` on numbers: any comparison with NaN is false; the
infinities compare as expected. -/
def jsLt : JSVal → JSVal → Bool
  | .nan, _ => false
  | _, .nan => false
  | .num a, .num b => a < b
  | .negInf, .negInf => false
  | .negInf, .num _ => true
  | .negInf, .posInf => true
  | .num _, .posInf => true
  | .posInf, _ => false
  | .num _, .negInf => false

/-- JavaScript `isNaN` on numbers. -/
def jsIsNaN : JSVal → Bool
  | .nan => true
  | _ => false

/-- The numeric value of a finite `JSVal` (only ever read behind the
validation guard, which rejects every non-finite value). -/
def JSVal.toQ : JSVal → ℚ
  | .num q => q
  | _ => 0

/-- `drawPoint`'s validation (drawing-engine.js line 218):
`isNaN(x) || isNaN(y) || x < 0 || y < 0 || x > width || y > height`. -/
def invalidCoord (w h : ℚ) (x y : JSVal) : Bool :=
  jsIsNaN x || jsIsNaN y || jsLt x (.num 0) || jsLt y (.num 0) ||
    jsLt (.num w) x || jsLt (.num h) y

/-- `drawPoint(x, y)` (drawing-engine.js lines 214-262): validate, copy the
front texture into the back framebuffer, draw one brush/eraser disc with
center `(x, height - y)` and radius `brushSize * pressure`, then present. -/
def drawPoint (s : EngineState) (x y : JSVal) : EngineState :=
  if invalidCoord s.width s.height x y then s
  else
    let qx := x.toQ
    let qy := y.toQ
    let seeded := Img.blit s.front s.back
    let radius := s.brushSize * s.pressure
    let op : StampOp :=
      if s.currentTool = "eraser" then .eraser qx (s.height - qy) radius
      else .pen qx (s.height - qy) radius
        ⟨s.currentColor.r, s.currentColor.g, s.currentColor.b, s.pressure⟩
    { s with back := .stamp op seeded,
             log := s.log ++ [.seed, .stampDraw, .present] }

/-- `setTool` (line 147). -/
def setTool (s : EngineState) (tool : String) : EngineState := { s with currentTool := tool }

/-- `setBrushSize` (lines 156-158): stores the given size as-is. -/
def setBrushSize (s : EngineState) (size : ℚ) : EngineState := { s with brushSize := size }

/-- `setPressure` (lines 160-162): clamps to `[0.1, 1.0]`. -/
def setPressure (s : EngineState) (p : ℚ) : EngineState :=
  { s with pressure := max (1/10) (min 1 p) }

/-- `this.smoothingFactor = 0.1` (line 20). -/
def smoothingFactor : ℚ := 1/10

/-- `smoothPoint(x, y)` (lines 202-212): with fewer than two recorded points
the raw point is returned; otherwise the last recorded point is blended a
fraction `smoothingFactor` toward the raw point. -/
def smoothPoint (s : EngineState) (x y : ℚ) : Pt :=
  if s.strokePoints.length < 2 then ⟨x, y⟩
  else
    let lastPoint := s.strokePoints.getLastD ⟨0, 0, 0⟩
    ⟨lastPoint.x + (x - lastPoint.x) * smoothingFactor,
     lastPoint.y + (y - lastPoint.y) * smoothingFactor⟩

/-- `Math.max(1, Math.floor(distance / 2))` with `distance = √distSq`
(lines 265-266).  For `q ≥ 0` one has `⌊√q⌋ = Nat.sqrt ⌊q⌋` and
`⌊s / 2⌋ = ⌊⌊s⌋ / 2⌋`, so the step count is computed from the squared
distance. -/
def jsSteps (distSq : ℚ) : Nat := max 1 (Nat.sqrt ⌊distSq⌋.toNat / 2)

/-- `drawLine(x1, y1, x2, y2)` (lines 264-274): stamps at `steps + 1` evenly
interpolated points. -/
def drawLine (s : EngineState) (x1 y1 x2 y2 : ℚ) : EngineState :=
  let distSq := (x2 - x1) ^ 2 + (y2 - y1) ^ 2
  let steps := jsSteps distSq
  (List.range (steps + 1)).foldl
    (fun st (i : ℕ) =>
      let t : ℚ := (i : ℚ) / (steps : ℚ)
      drawPoint st (.num (x1 + (x2 - x1) * t)) (.num (y1 + (y2 - y1) * t)))
    s

/-- `startStroke(x, y, pressure)` (lines 164-174). -/
def startStroke (s : EngineState) (x y pressure : ℚ) : EngineState :=
  let s1 := { s with isDrawing := true, lastPoint := some ⟨x, y⟩,
                     strokePoints := [⟨x, y, pressure⟩] }
  let s2 := setPressure s1 pressure
  drawPoint s2 (.num x) (.num y)

/-- `continueStroke(x, y, pressure)` (lines 176-191): no-op unless drawing;
otherwise record the smoothed point, draw a line from `lastPoint` to it, and
advance `lastPoint`. -/
def continueStroke (s : EngineState) (x y pressure : ℚ) : EngineState :=
  if !s.isDrawing then s
  else
    let s1 := setPressure s pressure
    let smoothed := smoothPoint s1 x y
    let s2 := { s1 with
      strokePoints := s1.strokePoints ++ [(⟨smoothed.x, smoothed.y, pressure⟩ : StrokePoint)] }
    let s3 := match s2.lastPoint with
      | some lp => drawLine s2 lp.x lp.y smoothed.x smoothed.y
      | none => s2
    { s3 with lastPoint := some smoothed }

/-- `endStroke()` (lines 193-200): reset stroke state and swap the buffers. -/
def endStroke (s : EngineState) : EngineState :=
  { s with isDrawing := false, lastPoint := none, strokePoints := [],
           front := s.back, back := s.front, log := s.log ++ [.swap] }

/-- `clear()` (lines 323-337): clear both buffers to white and present. -/
def clearEngine (s : EngineState) : EngineState :=
  { s with front := .white, back := .white, log := s.log ++ [.clearOp, .present] }

/-- The constructor's initial state (lines 11-24): pen tool, opaque black,
brush size 5, followed by the constructor's `clear()` call. -/
def initState (w h : ℚ) : EngineState :=
  clearEngine
    { currentTool := "pen", currentColor := ⟨0, 0, 0, 1⟩, brushSize := 5,
      isDrawing := false, lastPoint := none, pressure := 1, strokePoints := [],
      width := w, height := h, front := .white, back := .white, log := [] }

/-- Number of front-to-back seed copies in a GL log. -/
def seedCount (l : List RenderOp) : Nat := l.count .seed

/-- Keyboard `[` (main.js line 427): `setBrushSize(Math.max(1, brushSize - 1))`. -/
def handleKeyBracketLeft (s : EngineState) : EngineState :=
  setBrushSize s (max 1 (s.brushSize - 1))

/-- Keyboard `]` (main.js line 433): `setBrushSize(Math.min(50, brushSize + 1))`. -/
def handleKeyBracketRight (s : EngineState) : EngineState :=
  setBrushSize s (min 50 (s.brushSize + 1))

/-! ## Per-claim theorems about the engine -/

/-- C10: calling `continueStroke` while no stroke is in progress leaves the
whole engine state — stroke bookkeeping, tool state, and both buffers —
untouched. -/
theorem continueStroke_noop (s : EngineState) (x y p : ℚ)
    (h : s.isDrawing = false) : continueStroke s x y p = s := by
  simp [continueStroke, h]
theorem continueStroke_noop_witness :
    (initState 800 600).isDrawing = false ∧
      continueStroke (initState 800 600) 3 4 1 = initState 800 600 :=
  ⟨rfl, continueStroke_noop (initState 800 600) 3 4 1 rfl⟩

/-- C5: a stamp whose center is NaN, infinite, or outside `[0, width] ×
[0, height]` is silently dropped: `drawPoint` leaves the state (in particular
the back buffer and `isDrawing`) unchanged.  Conjuncts: (1) every coordinate
pair flagged invalid is a no-op; (2, 3) every non-finite x or y is flagged
invalid; (4) every finite out-of-bounds pair is flagged invalid. -/
theorem drawPoint_invalid_dropped :
    (∀ (s : EngineState) (x y : JSVal),
        invalidCoord s.width s.height x y = true → drawPoint s x y = s)
    ∧ (∀ (w h : ℚ) (y : JSVal),
        invalidCoord w h .nan y = true ∧ invalidCoord w h .posInf y = true ∧
          invalidCoord w h .negInf y = true)
    ∧ (∀ (w h : ℚ) (x : JSVal),
        invalidCoord w h x .nan = true ∧ invalidCoord w h x .posInf = true ∧
          invalidCoord w h x .negInf = true)
    ∧ (∀ (w h qx qy : ℚ), (qx < 0 ∨ qy < 0 ∨ w < qx ∨ h < qy) →
        invalidCoord w h (.num qx) (.num qy) = true) := by
  refine ⟨?_, ?_, ?_, ?_⟩
  · intro s x y h
    simp [drawPoint, h]
  · intro w h y
    refine ⟨by simp [invalidCoord, jsIsNaN], ?_, ?_⟩ <;>
      cases y <;> simp [invalidCoord, jsIsNaN, jsLt]
  · intro w h x
    refine ⟨by simp [invalidCoord, jsIsNaN], ?_, ?_⟩ <;>
      cases x <;> simp [invalidCoord, jsIsNaN, jsLt]
  · intro w h qx qy hout
    simp only [invalidCoord, jsIsNaN, jsLt, Bool.or_eq_true, decide_eq_true_eq]
    tauto
theorem drawPoint_invalid_dropped_witness :
    invalidCoord (initState 800 600).width (initState 800 600).height
        (.num (-5)) (.num 3) = true ∧
      drawPoint (initState 800 600) (.num (-5)) (.num 3) = initState 800 600 := by
  have h : invalidCoord (initState 800 600).width (initState 800 600).height
      (.num (-5)) (.num 3) = true := by
    show invalidCoord 800 600 (.num (-5)) (.num 3) = true
    simp only [invalidCoord, jsIsNaN, jsLt, Bool.or_eq_true, decide_eq_true_eq]
    norm_num
  exact ⟨h, drawPoint_invalid_dropped.1 _ _ _ h⟩

/-- C3 (amended): the front-to-back seed copy is performed by every accepted
stamp — `drawPoint` adds exactly one seed copy per in-bounds stamp, not one
per stroke. -/
theorem seedCount_drawPoint (s : EngineState) (x y : JSVal) :
    seedCount (drawPoint s x y).log =
      seedCount s.log + (if invalidCoord s.width s.height x y = true then 0 else 1) := by
  unfold drawPoint seedCount
  by_cases h : invalidCoord s.width s.height x y = true
  · simp [h]
  · simp [h, List.count_append]

/-- C3 (counterexample): a single stroke consisting of `startStroke(10,10)`
followed by one `continueStroke(10,10)` performs three seed copies before the
stroke ends (and no buffer swap has happened yet), refuting "exactly once per
stroke, at stroke start". -/
theorem seedCount_three_in_one_stroke :
    seedCount (continueStroke (startStroke (initState 800 600) 10 10 1) 10 10 1).log = 3
    ∧ RenderOp.swap ∉ (continueStroke (startStroke (initState 800 600) 10 10 1) 10 10 1).log := by
  norm_num [initState, clearEngine, startStroke, continueStroke, setPressure, smoothPoint,
    drawLine, jsSteps, drawPoint, invalidCoord, jsIsNaN, jsLt, JSVal.toQ, seedCount,
    smoothingFactor, max_def, min_def, List.range_succ, List.count_append, List.count_cons]
  decide

/-- C9 (counterexample): `setBrushSize` stores its argument unclamped — the
input 100 yields a stored brush radius of 100, outside `[1, 50]`. -/
theorem setBrushSize_unclamped :
    (setBrushSize (initState 800 600) 100).brushSize = 100
    ∧ ¬ (setBrushSize (initState 800 600) 100).brushSize ≤ 50 := by
  refine ⟨rfl, ?_⟩
  show ¬ (100 : ℚ) ≤ 50
  norm_num

/-- C9 (amended): `setBrushSize` stores the requested size verbatim (no
clamping), while the keyboard bracket handlers clamp their step, so a brush
radius that starts in `[1, 50]` stays in `[1, 50]` under them. -/
theorem brushSize_keyboard_clamped :
    (∀ (s : EngineState) (v : ℚ), (setBrushSize s v).brushSize = v)
    ∧ (∀ s : EngineState, 1 ≤ s.brushSize → s.brushSize ≤ 50 →
        (1 ≤ (handleKeyBracketLeft s).brushSize ∧ (handleKeyBracketLeft s).brushSize ≤ 50)
        ∧ (1 ≤ (handleKeyBracketRight s).brushSize ∧
            (handleKeyBracketRight s).brushSize ≤ 50)) := by
  refine ⟨fun s v => rfl, ?_⟩
  intro s h1 h50
  refine ⟨⟨le_max_left _ _, ?_⟩, ⟨?_, min_le_left _ _⟩⟩
  · exact max_le (by norm_num) (by linarith)
  · exact le_min (by norm_num) (by linarith)
theorem brushSize_keyboard_clamped_witness :
    1 ≤ (initState 800 600).brushSize ∧ (initState 800 600).brushSize ≤ 50 ∧
      ((1 ≤ (handleKeyBracketLeft (initState 800 600)).brushSize ∧
          (handleKeyBracketLeft (initState 800 600)).brushSize ≤ 50)
        ∧ (1 ≤ (handleKeyBracketRight (initState 800 600)).brushSize ∧
            (handleKeyBracketRight (initState 800 600)).brushSize ≤ 50)) := by
  have h1 : 1 ≤ (initState 800 600).brushSize := by
    show (1:ℚ) ≤ 5; norm_num
  have h50 : (initState 800 600).brushSize ≤ 50 := by
    show (5:ℚ) ≤ 50; norm_num
  exact ⟨h1, h50, brushSize_keyboard_clamped.2 _ h1 h50⟩

/-! ### Frame lemmas: `drawPoint` only writes the back buffer and the log -/

lemma drawPoint_eq_of_invalid (s : EngineState) (x y : JSVal)
    (h : invalidCoord s.width s.height x y = true) : drawPoint s x y = s := by
  simp [drawPoint, h]

lemma drawPoint_strokePoints (s : EngineState) (x y : JSVal) :
    (drawPoint s x y).strokePoints = s.strokePoints := by
  unfold drawPoint; split <;> rfl

lemma drawPoint_lastPoint (s : EngineState) (x y : JSVal) :
    (drawPoint s x y).lastPoint = s.lastPoint := by
  unfold drawPoint; split <;> rfl

lemma drawPoint_isDrawing (s : EngineState) (x y : JSVal) :
    (drawPoint s x y).isDrawing = s.isDrawing := by
  unfold drawPoint; split <;> rfl

lemma drawPoint_front (s : EngineState) (x y : JSVal) :
    (drawPoint s x y).front = s.front := by
  unfold drawPoint; split <;> rfl

lemma drawPoint_width (s : EngineState) (x y : JSVal) :
    (drawPoint s x y).width = s.width := by
  unfold drawPoint; split <;> rfl

lemma drawPoint_height (s : EngineState) (x y : JSVal) :
    (drawPoint s x y).height = s.height := by
  unfold drawPoint; split <;> rfl

lemma foldl_drawPoint_preserves (xi yi : ℕ → JSVal) :
    ∀ (l : List ℕ) (s : EngineState),
      ((l.foldl (fun st i => drawPoint st (xi i) (yi i)) s).strokePoints = s.strokePoints)
      ∧ ((l.foldl (fun st i => drawPoint st (xi i) (yi i)) s).lastPoint = s.lastPoint)
      ∧ ((l.foldl (fun st i => drawPoint st (xi i) (yi i)) s).isDrawing = s.isDrawing)
  | [], _ => ⟨rfl, rfl, rfl⟩
  | i :: t, s => by
      simp only [List.foldl_cons]
      obtain ⟨a, b, c⟩ := foldl_drawPoint_preserves xi yi t (drawPoint s (xi i) (yi i))
      exact ⟨a.trans (drawPoint_strokePoints s (xi i) (yi i)),
             b.trans (drawPoint_lastPoint s (xi i) (yi i)),
             c.trans (drawPoint_isDrawing s (xi i) (yi i))⟩

lemma drawLine_preserves (s : EngineState) (x1 y1 x2 y2 : ℚ) :
    (drawLine s x1 y1 x2 y2).strokePoints = s.strokePoints
    ∧ (drawLine s x1 y1 x2 y2).lastPoint = s.lastPoint
    ∧ (drawLine s x1 y1 x2 y2).isDrawing = s.isDrawing := by
  unfold drawLine
  exact foldl_drawPoint_preserves _ _ _ s

lemma drawLine_strokePoints (s : EngineState) (x1 y1 x2 y2 : ℚ) :
    (drawLine s x1 y1 x2 y2).strokePoints = s.strokePoints :=
  (drawLine_preserves s x1 y1 x2 y2).1

lemma drawLine_lastPoint (s : EngineState) (x1 y1 x2 y2 : ℚ) :
    (drawLine s x1 y1 x2 y2).lastPoint = s.lastPoint :=
  (drawLine_preserves s x1 y1 x2 y2).2.1

lemma startStroke_front (s : EngineState) (x y p : ℚ) :
    (startStroke s x y p).front = s.front := by
  unfold startStroke
  exact drawPoint_front _ _ _

lemma startStroke_width (s : EngineState) (x y p : ℚ) :
    (startStroke s x y p).width = s.width := by
  unfold startStroke
  exact drawPoint_width _ _ _

lemma startStroke_height (s : EngineState) (x y p : ℚ) :
    (startStroke s x y p).height = s.height := by
  unfold startStroke
  exact drawPoint_height _ _ _

lemma startStroke_back_of_invalid (s : EngineState) (x y p : ℚ)
    (h : invalidCoord s.width s.height (.num x) (.num y) = true) :
    (startStroke s x y p).back = s.back := by
  show (drawPoint (setPressure
      { s with isDrawing := true, lastPoint := some ⟨x, y⟩,
               strokePoints := [⟨x, y, p⟩] } p) (.num x) (.num y)).back = s.back
  rw [drawPoint_eq_of_invalid (setPressure
      { s with isDrawing := true, lastPoint := some ⟨x, y⟩,
               strokePoints := [⟨x, y, p⟩] } p) (.num x) (.num y) h]
  rfl

/-- C8 (amended): once a stroke already holds at least two recorded points,
`continueStroke` records exactly the exponential blend of the previous
recorded point toward the raw sample with factor `0.1` (and that smoothed
point becomes the rasterizer's new line endpoint); the very first
`continueStroke` of a stroke records the raw point unchanged instead. -/
theorem continueStroke_smoothing (s : EngineState) (x y p : ℚ)
    (hd : s.isDrawing = true) (hn : 2 ≤ s.strokePoints.length) :
    (continueStroke s x y p).strokePoints =
      s.strokePoints ++
        [⟨(s.strokePoints.getLastD ⟨0, 0, 0⟩).x
            + (x - (s.strokePoints.getLastD ⟨0, 0, 0⟩).x) * smoothingFactor,
          (s.strokePoints.getLastD ⟨0, 0, 0⟩).y
            + (y - (s.strokePoints.getLastD ⟨0, 0, 0⟩).y) * smoothingFactor, p⟩]
    ∧ (continueStroke s x y p).lastPoint =
      some ⟨(s.strokePoints.getLastD ⟨0, 0, 0⟩).x
          + (x - (s.strokePoints.getLastD ⟨0, 0, 0⟩).x) * smoothingFactor,
        (s.strokePoints.getLastD ⟨0, 0, 0⟩).y
          + (y - (s.strokePoints.getLastD ⟨0, 0, 0⟩).y) * smoothingFactor⟩ := by
  have hlen : ¬ s.strokePoints.length < 2 := by omega
  cases hl : s.lastPoint with
  | none =>
      simp only [continueStroke, hd, Bool.not_true, Bool.false_eq_true, if_false,
        setPressure, smoothPoint, hl, hlen, ite_false]
      constructor <;> first | rfl | trivial
  | some lp =>
      simp only [continueStroke, hd, Bool.not_true, Bool.false_eq_true, if_false,
        setPressure, smoothPoint, hl, hlen, ite_false, drawLine_strokePoints]
      constructor <;> first | rfl | trivial

def smoothingWitnessState : EngineState :=
  { initState 800 600 with
    isDrawing := true,
    strokePoints := [⟨0, 0, 1⟩, ⟨0, 0, 1⟩],
    lastPoint := some ⟨0, 0⟩ }
theorem continueStroke_smoothing_witness :
    smoothingWitnessState.isDrawing = true
    ∧ 2 ≤ smoothingWitnessState.strokePoints.length
    ∧ ((continueStroke smoothingWitnessState 10 10 1).strokePoints =
        smoothingWitnessState.strokePoints ++
          [⟨(smoothingWitnessState.strokePoints.getLastD ⟨0, 0, 0⟩).x
              + (10 - (smoothingWitnessState.strokePoints.getLastD ⟨0, 0, 0⟩).x)
                * smoothingFactor,
            (smoothingWitnessState.strokePoints.getLastD ⟨0, 0, 0⟩).y
              + (10 - (smoothingWitnessState.strokePoints.getLastD ⟨0, 0, 0⟩).y)
                * smoothingFactor, 1⟩]
      ∧ (continueStroke smoothingWitnessState 10 10 1).lastPoint =
        some ⟨(smoothingWitnessState.strokePoints.getLastD ⟨0, 0, 0⟩).x
            + (10 - (smoothingWitnessState.strokePoints.getLastD ⟨0, 0, 0⟩).x)
              * smoothingFactor,
          (smoothingWitnessState.strokePoints.getLastD ⟨0, 0, 0⟩).y
            + (10 - (smoothingWitnessState.strokePoints.getLastD ⟨0, 0, 0⟩).y)
              * smoothingFactor⟩) :=
  ⟨rfl, by decide, continueStroke_smoothing smoothingWitnessState 10 10 1 rfl (by decide)⟩

/-- C8 (counterexample): on the first `continueStroke` after `startStroke`
the engine records the raw point, not the exponentially blended one: starting
at `(10,10)` and sampling `(11,10)` records x-coordinate `11`, whereas the
claimed blend `prev + (raw - prev) * 0.1` gives `10.1`. -/
theorem continueStroke_first_point_unsmoothed :
    (continueStroke (startStroke (initState 800 600) 10 10 1) 11 10 1).strokePoints.getLastD
        ⟨0, 0, 0⟩ = ⟨11, 10, 1⟩
    ∧ (10 : ℚ) + (11 - 10) * smoothingFactor = 101/10
    ∧ (11 : ℚ) ≠ 101/10 := by
  refine ⟨?_, by norm_num [smoothingFactor], by norm_num⟩
  norm_num [startStroke, initState, clearEngine, setPressure, drawPoint, invalidCoord,
    jsIsNaN, jsLt, JSVal.toQ, continueStroke, smoothPoint, drawLine, jsSteps,
    smoothingFactor, max_def, min_def, List.range_succ, List.getLastD]

/-- C4 (amended): `commit` (`endStroke`) alone does not reproduce the
just-committed image in the new back buffer — after a committed stroke the
back buffer holds the stale pre-stroke front (the per-stamp seed inside
`drawPoint` is what refreshes it), so a second stroke whose only stamp is
dropped commits the stale buffer and the front reverts to the pre-stroke
image. -/
theorem commit_back_is_stale (s : EngineState) (x y p x2 y2 p2 : ℚ)
    (hinv : invalidCoord s.width s.height (.num x2) (.num y2) = true) :
    (endStroke (startStroke s x y p)).back = s.front
    ∧ (endStroke (startStroke (endStroke (startStroke s x y p)) x2 y2 p2)).front
      = s.front := by
  have hb : (endStroke (startStroke s x y p)).back = s.front := by
    show (startStroke s x y p).front = s.front
    exact startStroke_front s x y p
  refine ⟨hb, ?_⟩
  have hw : (endStroke (startStroke s x y p)).width = s.width := by
    show (startStroke s x y p).width = s.width
    exact startStroke_width s x y p
  have hh : (endStroke (startStroke s x y p)).height = s.height := by
    show (startStroke s x y p).height = s.height
    exact startStroke_height s x y p
  show (startStroke (endStroke (startStroke s x y p)) x2 y2 p2).back = s.front
  rw [startStroke_back_of_invalid _ _ _ _ (by rw [hw, hh]; exact hinv)]
  exact hb
theorem commit_back_is_stale_witness :
    invalidCoord (initState 800 600).width (initState 800 600).height
        (.num (-5)) (.num (-5)) = true
    ∧ ((endStroke (startStroke (initState 800 600) 10 10 1)).back
        = (initState 800 600).front
      ∧ (endStroke (startStroke (endStroke (startStroke (initState 800 600) 10 10 1))
          (-5) (-5) 1)).front = (initState 800 600).front) := by
  have h : invalidCoord (initState 800 600).width (initState 800 600).height
      (.num (-5)) (.num (-5)) = true := by
    show invalidCoord 800 600 (.num (-5)) (.num (-5)) = true
    simp only [invalidCoord, jsIsNaN, jsLt, Bool.or_eq_true, decide_eq_true_eq]
    norm_num
  exact ⟨h, commit_back_is_stale (initState 800 600) 10 10 1 (-5) (-5) 1 h⟩

/-- C4 (counterexample): draw stroke A (one stamp at `(10,10)`), commit, then
run a stroke with no effective stamps (its only stamp is out of bounds, hence
silently dropped) and commit again; at stroke A's center pixel the front
buffer is back to white (`r = 1`), while the image after stroke A alone is
black there (`r = 0`), so the round-trip does not reproduce the committed
image. -/
theorem emptyCommit_reverts_canvas :
    (renderAt (endStroke (startStroke (endStroke (startStroke (initState 800 600) 10 10 1))
        (-5) (-5) 1)).front 10 590).r = 1
    ∧ (renderAt (endStroke (startStroke (initState 800 600) 10 10 1)).front 10 590).r = 0
    ∧ (1 : ℝ) ≠ 0 := by
  have hA : (endStroke (startStroke (initState 800 600) 10 10 1)).front
      = Img.stamp (.pen 10 590 5 ⟨0, 0, 0, 1⟩) (.blit .white .white) := by
    norm_num [initState, clearEngine, startStroke, setPressure, drawPoint, invalidCoord,
      jsIsNaN, jsLt, JSVal.toQ, endStroke, max_def, min_def]
    decide
  have hF : (endStroke (startStroke (endStroke (startStroke (initState 800 600) 10 10 1))
      (-5) (-5) 1)).front = Img.white := by
    norm_num [initState, clearEngine, startStroke, setPressure, drawPoint, invalidCoord,
      jsIsNaN, jsLt, JSVal.toQ, endStroke, max_def, min_def]
  rw [hA, hF]
  refine ⟨by norm_num [renderAt], ?_, by norm_num⟩
  show (blendSourceOver _ _).r = 0
  norm_num [blendSourceOver, brushFragAlpha, smoothstep, clampUnit, max_def, min_def,
    Real.sqrt_zero]

/-! ### Shader alpha bounds (claim C6) -/

lemma clampUnit_nonneg (x : α) : 0 ≤ clampUnit x := le_max_left 0 _

lemma clampUnit_le_one (x : α) : clampUnit x ≤ 1 :=
  max_le zero_le_one (min_le_left 1 x)

lemma smoothstep_nonneg (e0 e1 x : α) : 0 ≤ smoothstep e0 e1 x := by
  have h0 := clampUnit_nonneg (α := α) ((x - e0) / (e1 - e0))
  have h1 := clampUnit_le_one (α := α) ((x - e0) / (e1 - e0))
  unfold smoothstep
  nlinarith

lemma smoothstep_le_one (e0 e1 x : α) : smoothstep e0 e1 x ≤ 1 := by
  have h0 := clampUnit_nonneg (α := α) ((x - e0) / (e1 - e0))
  have h1 := clampUnit_le_one (α := α) ((x - e0) / (e1 - e0))
  unfold smoothstep
  nlinarith [mul_nonneg (sq_nonneg (1 - clampUnit ((x - e0) / (e1 - e0))))
    (by linarith : (0:α) ≤ 2 * clampUnit ((x - e0) / (e1 - e0)) + 1)]

/-- C6 (amended): an eraser stamp never increases a pixel's alpha (the eraser
fragment alpha lies in `[0, 1]` and the `ZERO / ONE_MINUS_SRC_ALPHA` blend
scales the destination by `1 - srcAlpha`); a pen stamp on a fully transparent
pixel (every channel 0) never drives any channel below 0.  On the engine's
white background a pen stamp can lower channels below the background value
(see the counterexample). -/
theorem eraser_never_raises_alpha :
    (∀ (radius dist : ℚ) (dst : RGBA ℚ), 0 ≤ dst.a →
      (blendZeroOneMinusSrcAlpha ⟨1, 1, 1, eraserFragAlpha radius dist⟩ dst).a ≤ dst.a)
    ∧ (∀ (radius pressA dist rC gC bC : ℚ), 0 ≤ pressA → pressA ≤ 1 →
        0 ≤ rC → 0 ≤ gC → 0 ≤ bC →
        0 ≤ (blendSourceOver ⟨rC, gC, bC, brushFragAlpha radius pressA dist⟩
            ⟨0, 0, 0, 0⟩).r
        ∧ 0 ≤ (blendSourceOver ⟨rC, gC, bC, brushFragAlpha radius pressA dist⟩
            ⟨0, 0, 0, 0⟩).g
        ∧ 0 ≤ (blendSourceOver ⟨rC, gC, bC, brushFragAlpha radius pressA dist⟩
            ⟨0, 0, 0, 0⟩).b
        ∧ 0 ≤ (blendSourceOver ⟨rC, gC, bC, brushFragAlpha radius pressA dist⟩
            ⟨0, 0, 0, 0⟩).a) := by
  constructor
  · intro radius dist dst hdst
    have h0 := smoothstep_nonneg (α := ℚ) (radius - 1) (radius + 1) dist
    have h1 := smoothstep_le_one (α := ℚ) (radius - 1) (radius + 1) dist
    show (1 - eraserFragAlpha radius dist) * dst.a ≤ dst.a
    unfold eraserFragAlpha
    nlinarith
  · intro radius pressA dist rC gC bC hp0 hp1 hr hg hb
    have h0 := smoothstep_nonneg (α := ℚ) (radius - 1) (radius + 1) dist
    have h1 := smoothstep_le_one (α := ℚ) (radius - 1) (radius + 1) dist
    have ha : 0 ≤ brushFragAlpha radius pressA dist := by
      unfold brushFragAlpha
      have : (0:ℚ) ≤ 1 - smoothstep (radius - 1) (radius + 1) dist := by linarith
      exact mul_nonneg this hp0
    refine ⟨?_, ?_, ?_, ?_⟩ <;>
      · show (0:ℚ) ≤ _ * _ + (1 - _) * 0
        nlinarith
theorem eraser_never_raises_alpha_witness :
    (0 ≤ whiteQ.a ∧
      (blendZeroOneMinusSrcAlpha ⟨1, 1, 1, eraserFragAlpha 5 0⟩ whiteQ).a ≤ whiteQ.a)
    ∧ ((0:ℚ) ≤ 1 ∧ (1:ℚ) ≤ 1 ∧
        (0 ≤ (blendSourceOver (α := ℚ) ⟨0, 0, 0, brushFragAlpha 5 1 0⟩ ⟨0, 0, 0, 0⟩).r
        ∧ 0 ≤ (blendSourceOver (α := ℚ) ⟨0, 0, 0, brushFragAlpha 5 1 0⟩ ⟨0, 0, 0, 0⟩).g
        ∧ 0 ≤ (blendSourceOver (α := ℚ) ⟨0, 0, 0, brushFragAlpha 5 1 0⟩ ⟨0, 0, 0, 0⟩).b
        ∧ 0 ≤ (blendSourceOver (α := ℚ) ⟨0, 0, 0, brushFragAlpha 5 1 0⟩ ⟨0, 0, 0, 0⟩).a)) :=
  ⟨⟨by norm_num [whiteQ],
    eraser_never_raises_alpha.1 5 0 whiteQ (by norm_num [whiteQ])⟩,
   ⟨by norm_num, by norm_num,
    eraser_never_raises_alpha.2 5 1 0 0 0 0 (by norm_num) (by norm_num)
      (by norm_num) (by norm_num) (by norm_num)⟩⟩

/-- C6 (counterexample): the claim's pen half fails on the engine's actual
background.  The background installed by `clear()` is opaque white; a pen
stamp of black at half pressure on a background-valued pixel at the stamp
center yields red channel `1/2`, strictly below the background's `1`. -/
theorem pen_on_white_below_background :
    (blendSourceOver ⟨0, 0, 0, brushFragAlpha 5 (1/2) 0⟩ whiteQ).r < whiteQ.r := by
  norm_num [blendSourceOver, brushFragAlpha, smoothstep, clampUnit, whiteQ,
    max_def, min_def]

end GestureCanvas
